import Mathlib

/-!
Verification of the pypheature feature/diacritic/decomposition engine.

Shallow embedding of `src/pypheature/segment.py`, `diacritic.py`,
`nphthong.py` and `process.py`.  Python machine-level behaviours that the
claims depend on (dynamic attribute lookup failures, `len` of an object
without `__len__`, truthiness of a bound method) are modelled explicitly,
with comments pointing at the source line that produces them.
-/

namespace Pypheature

/-- Python exceptions (and runtime errors) that the embedded code can raise.
`typeError` models Python's `TypeError`, `attributeError` models
`AttributeError`; the rest are the exception classes defined by the
repository (`ConditionNotMet`, `InvalidSegment`, `ExclusivityFailure`,
`InvalidBaseSegment`, `InvalidDiacritic`, `InvalidNphthong`).
`outOfFuel` is an artefact of the fuelled loop model and is proved
unreachable for sufficient fuel. -/
inductive PErr where
  | typeError
  | attributeError
  | conditionNotMet
  | invalidSegment
  | exclusivityFailure
  | invalidBaseSegment
  | invalidDiacritic
  | invalidNphthong
  | outOfFuel
  deriving DecidableEq, Repr

/-- A feature value as stored on a `Segment`: `BinaryFeature` holds a plain
bool, `TernaryFeature` holds `True`, `False` or `None` (unspecified). -/
inductive Feat where
  | bin (b : Bool)
  | tern (v : Option Bool)
  deriving DecidableEq, Repr

/-- The sign prefix of a signed feature string: `+`, `-` or `0`
(`sign2value` in `Segment.check_features`). -/
inductive Sign where
  | plus
  | minus
  | zero
  deriving DecidableEq, Repr

/-- `sign2value`: `+` ↦ `True`, `-` ↦ `False`, `0` ↦ `None`. -/
def signVal : Sign → Option Bool
  | .plus => some true
  | .minus => some false
  | .zero => none

/-- The closed set of feature names of a `Segment` (its 28 dataclass
feature fields). -/
inductive FName where
  | syllabic | consonantal | approximant | sonorant | continuant
  | delayed_release | trill | tap | dorsal | front | back | high | low
  | tense | round | long | overlong | nasal | coronal | anterior
  | distributed | strident | lateral | labial | labiodental | voice
  | spread_glottis | constricted_glottis
  deriving DecidableEq, Repr

/-- A signed feature string such as `"+syllabic"`, split into its sign and
its feature name. -/
abbrev SignedFeat := Sign × FName

/-- The `Segment` dataclass: base symbol, 28 feature fields (typed
`BinaryFeature` = `Bool`, `TernaryFeature` = `Option Bool` exactly as in
the source), and the ordered list of applied diacritic surface strings. -/
structure Segment where
  base : String
  syllabic : Bool
  consonantal : Bool
  approximant : Bool
  sonorant : Bool
  continuant : Bool
  delayed_release : Option Bool
  trill : Bool
  tap : Bool
  dorsal : Bool
  front : Option Bool
  back : Option Bool
  high : Option Bool
  low : Option Bool
  tense : Option Bool
  round : Bool
  long : Bool
  overlong : Bool
  nasal : Bool
  coronal : Bool
  anterior : Option Bool
  distributed : Option Bool
  strident : Option Bool
  lateral : Bool
  labial : Bool
  labiodental : Bool
  voice : Bool
  spread_glottis : Bool
  constricted_glottis : Bool
  diacritics : List String := []
  deriving DecidableEq, Repr

/-- `getattr(self, name)` for the 28 feature fields, returning the typed
feature value. -/
def Segment.get (s : Segment) : FName → Feat
  | .syllabic => .bin s.syllabic
  | .consonantal => .bin s.consonantal
  | .approximant => .bin s.approximant
  | .sonorant => .bin s.sonorant
  | .continuant => .bin s.continuant
  | .delayed_release => .tern s.delayed_release
  | .trill => .bin s.trill
  | .tap => .bin s.tap
  | .dorsal => .bin s.dorsal
  | .front => .tern s.front
  | .back => .tern s.back
  | .high => .tern s.high
  | .low => .tern s.low
  | .tense => .tern s.tense
  | .round => .bin s.round
  | .long => .bin s.long
  | .overlong => .bin s.overlong
  | .nasal => .bin s.nasal
  | .coronal => .bin s.coronal
  | .anterior => .tern s.anterior
  | .distributed => .tern s.distributed
  | .strident => .tern s.strident
  | .lateral => .bin s.lateral
  | .labial => .bin s.labial
  | .labiodental => .bin s.labiodental
  | .voice => .bin s.voice
  | .spread_glottis => .bin s.spread_glottis
  | .constricted_glottis => .bin s.constricted_glottis

/-- `Feature.__eq__`: comparing against a value outside the feature's
`allowed_values` raises `TypeError` (a `BinaryFeature` allows only
`True`/`False`, so comparing it with `None` raises); otherwise the result
is identity of the stored value with the compared value. -/
def featEq : Feat → Option Bool → Except PErr Bool
  | .bin _, none => .error .typeError
  | .bin b, some v => .ok (b == v)
  | .tern v, o => .ok (v == o)

/-- One entry of `Segment.check_features`: compare the named feature
against the value denoted by the sign. -/
def entryVal (s : Segment) (e : SignedFeat) : Except PErr Bool :=
  featEq (s.get e.2) (signVal e.1)

/-- `Segment.check_features`: walk the signed feature list; a raised
`TypeError` propagates, the first mismatch returns `False`, and the empty
list returns `True`. -/
def cf (s : Segment) : List SignedFeat → Except PErr Bool
  | [] => .ok true
  | e :: rest =>
      match entryVal s e with
      | .error err => .error err
      | .ok false => .ok false
      | .ok true => cf s rest

/-- Boolean reading of one `check_features` entry, for the calls inside the
`is_*` predicates: those calls never pair a `0` sign with a binary feature,
so `featEq` never raises on them (`cf_eq_checkB` below makes this exact);
the `error` branch here is therefore unreachable for the predicates. -/
def entryMatches (s : Segment) (e : SignedFeat) : Bool :=
  match entryVal s e with
  | .ok b => b
  | .error _ => false

/-- Boolean reading of `check_features` for the never-raising calls made by
the `is_*` predicates. -/
def checkB (s : Segment) (l : List SignedFeat) : Bool :=
  l.all fun e => entryMatches s e

/-- A `check_features` entry is safe (cannot raise) when it does not compare
a binary feature against `None`. -/
def entrySafe (s : Segment) (e : SignedFeat) : Bool :=
  match s.get e.2, signVal e.1 with
  | .bin _, none => false
  | _, _ => true

/-- On safe entry lists, `check_features` returns exactly the boolean
conjunction `checkB`. -/
theorem cf_eq_checkB (s : Segment) (l : List SignedFeat)
    (h : ∀ e ∈ l, entrySafe s e = true) : cf s l = .ok (checkB s l) := by
  induction l with
  | nil => rfl
  | cons e rest ih =>
      have he : entrySafe s e = true := h e (by simp)
      have hrest : ∀ x ∈ rest, entrySafe s x = true := fun x hx => h x (by simp [hx])
      unfold cf checkB
      unfold entrySafe at he
      unfold entryMatches
      rcases hev : entryVal s e with err | b
      · exfalso
        unfold entryVal featEq at hev
        revert hev he
        rcases hg : s.get e.2 with b | v <;> rcases hs : signVal e.1 with _ | w <;>
          simp [hg, hs]
      · cases b
        · simp [hev, List.all_cons]
        · simpa [hev, List.all_cons, checkB] using ih hrest

/-! ### Sonority hierarchy (`natural_class('sonority')`, no condition) -/

/-- `is_glide`: exceptions `'ʍ'`, `'ɦ'`, `'h'` return `False`; otherwise
`check_features(['-syllabic', '-consonantal'])`. -/
def Segment.is_glide (s : Segment) : Bool :=
  if s.base ∈ (["ʍ", "ɦ", "h"] : List String) then false
  else checkB s [(.minus, .syllabic), (.minus, .consonantal)]

/-- `is_liquid`: `check_features(['+consonantal', '+approximant'])`. -/
def Segment.is_liquid (s : Segment) : Bool :=
  checkB s [(.plus, .consonantal), (.plus, .approximant)]

/-- `is_nasal`: `check_features(['-approximant', '+sonorant'])`. -/
def Segment.is_nasal (s : Segment) : Bool :=
  checkB s [(.minus, .approximant), (.plus, .sonorant)]

/-- `is_obstruent`: `check_features(['-sonorant'])`. -/
def Segment.is_obstruent (s : Segment) : Bool :=
  checkB s [(.minus, .sonorant)]

/-- `is_vowel`: `'+syllabic'` and none of glide/liquid/nasal/obstruent. -/
def Segment.is_vowel (s : Segment) : Bool :=
  checkB s [(.plus, .syllabic)]
    && !(s.is_glide || s.is_liquid || s.is_nasal || s.is_obstruent)

/-! ### Obstruent subclasses (`natural_class('obstruent', condition=is_obstruent)`).
The `_body` functions are the raw registered predicates; the public ones are
their condition-wrapped versions (returning `False` when the condition
fails). -/

/-- Raw body of `is_stop`. -/
def Segment.is_stop_body (s : Segment) : Bool :=
  checkB s [(.minus, .continuant), (.minus, .delayed_release)]

/-- Raw body of `is_affricate`. -/
def Segment.is_affricate_body (s : Segment) : Bool :=
  checkB s [(.minus, .continuant), (.plus, .delayed_release)]

/-- Raw body of `is_fricative`. -/
def Segment.is_fricative_body (s : Segment) : Bool :=
  checkB s [(.plus, .continuant), (.plus, .delayed_release)]

/-- `is_stop`, wrapped: `False` unless the segment is an obstruent. -/
def Segment.is_stop (s : Segment) : Bool := s.is_obstruent && s.is_stop_body

/-- `is_affricate`, wrapped. -/
def Segment.is_affricate (s : Segment) : Bool :=
  s.is_obstruent && s.is_affricate_body

/-- `is_fricative`, wrapped. -/
def Segment.is_fricative (s : Segment) : Bool :=
  s.is_obstruent && s.is_fricative_body

/-! ### Trills and taps: decorated with `gen_condition(is_liquid)`, which
RAISES `ConditionNotMet` when the condition fails (it does not return
`False`). -/

/-- `is_trill`: raises `ConditionNotMet` on a non-liquid. -/
def Segment.is_trill (s : Segment) : Except PErr Bool :=
  if s.is_liquid then .ok (checkB s [(.plus, .trill)])
  else .error .conditionNotMet

/-- `is_tap`: raises `ConditionNotMet` on a non-liquid. -/
def Segment.is_tap (s : Segment) : Except PErr Bool :=
  if s.is_liquid then .ok (checkB s [(.plus, .tap)])
  else .error .conditionNotMet

/-! ### Vowel backness (`natural_class('backness', condition=is_vowel)`) -/

/-- Raw body of `is_front`. -/
def Segment.is_front_body (s : Segment) : Bool :=
  checkB s [(.plus, .front), (.minus, .back)]

/-- Raw body of `is_central`. -/
def Segment.is_central_body (s : Segment) : Bool :=
  checkB s [(.minus, .front), (.minus, .back)]

/-- Raw body of `is_back`. -/
def Segment.is_back_body (s : Segment) : Bool :=
  checkB s [(.minus, .front), (.plus, .back)]

/-- `is_front`, wrapped: `False` unless the segment is a vowel. -/
def Segment.is_front (s : Segment) : Bool := s.is_vowel && s.is_front_body

/-- `is_central`, wrapped. -/
def Segment.is_central (s : Segment) : Bool := s.is_vowel && s.is_central_body

/-- `is_back`, wrapped. -/
def Segment.is_back (s : Segment) : Bool := s.is_vowel && s.is_back_body

/-! ### Vowel height (`natural_class('height', condition=is_vowel)`) -/

/-- Raw body of `is_upper_high_vowel`. -/
def Segment.is_upper_high_vowel_body (s : Segment) : Bool :=
  checkB s [(.plus, .high), (.minus, .low), (.plus, .tense)]

/-- Raw body of `is_lower_high_vowel`. -/
def Segment.is_lower_high_vowel_body (s : Segment) : Bool :=
  checkB s [(.plus, .high), (.minus, .low), (.minus, .tense)]

/-- Raw body of `is_upper_mid_vowel`. -/
def Segment.is_upper_mid_vowel_body (s : Segment) : Bool :=
  checkB s [(.minus, .high), (.minus, .low), (.plus, .tense)]

/-- Raw body of `is_lower_mid_vowel`. -/
def Segment.is_lower_mid_vowel_body (s : Segment) : Bool :=
  checkB s [(.minus, .high), (.minus, .low), (.minus, .tense)]

/-- Raw body of `is_low_vowel`. -/
def Segment.is_low_vowel_body (s : Segment) : Bool :=
  checkB s [(.minus, .high), (.plus, .low)]

/-- `is_upper_high_vowel`, wrapped. -/
def Segment.is_upper_high_vowel (s : Segment) : Bool :=
  s.is_vowel && s.is_upper_high_vowel_body

/-- `is_lower_high_vowel`, wrapped. -/
def Segment.is_lower_high_vowel (s : Segment) : Bool :=
  s.is_vowel && s.is_lower_high_vowel_body

/-- `is_upper_mid_vowel`, wrapped. -/
def Segment.is_upper_mid_vowel (s : Segment) : Bool :=
  s.is_vowel && s.is_upper_mid_vowel_body

/-- `is_lower_mid_vowel`, wrapped. -/
def Segment.is_lower_mid_vowel (s : Segment) : Bool :=
  s.is_vowel && s.is_lower_mid_vowel_body

/-- `is_low_vowel`, wrapped. -/
def Segment.is_low_vowel (s : Segment) : Bool :=
  s.is_vowel && s.is_low_vowel_body

/-! ### Rounding / nasalization: decorated with `gen_condition(is_vowel)`,
which raises `ConditionNotMet` on a non-vowel. -/

/-- `is_round`: raises `ConditionNotMet` on a non-vowel. -/
def Segment.is_round (s : Segment) : Except PErr Bool :=
  if s.is_vowel then .ok (checkB s [(.plus, .round)])
  else .error .conditionNotMet

/-- `is_nasalized`: raises `ConditionNotMet` on a non-vowel. -/
def Segment.is_nasalized (s : Segment) : Except PErr Bool :=
  if s.is_vowel then .ok (checkB s [(.plus, .nasal)])
  else .error .conditionNotMet

/-! ### Duration (`natural_class('duration')`, no condition) -/

/-- `is_short`: `check_features(['-long'])`. -/
def Segment.is_short (s : Segment) : Bool := checkB s [(.minus, .long)]

/-- `is_long`: `check_features(['+long', '-overlong'])`. -/
def Segment.is_long (s : Segment) : Bool :=
  checkB s [(.plus, .long), (.minus, .overlong)]

/-- `is_overlong`: `check_features(['+overlong'])`. -/
def Segment.is_overlong (s : Segment) : Bool := checkB s [(.plus, .overlong)]

/-! ### Coronal subclasses (`natural_class('coronal', condition=is_coronal)`) -/

/-- `is_coronal`: `check_features(['+coronal'])`. -/
def Segment.is_coronal (s : Segment) : Bool := checkB s [(.plus, .coronal)]

/-- Raw body of `is_lamino_dental`. -/
def Segment.is_lamino_dental_body (s : Segment) : Bool :=
  checkB s [(.plus, .anterior), (.plus, .distributed)]

/-- Raw body of `is_apico_alveolar`. -/
def Segment.is_apico_alveolar_body (s : Segment) : Bool :=
  checkB s [(.plus, .anterior), (.minus, .distributed)]

/-- Raw body of `is_palato_alveolar`. -/
def Segment.is_palato_alveolar_body (s : Segment) : Bool :=
  checkB s [(.minus, .anterior), (.plus, .distributed)]

/-- Raw body of `is_retroflex`. -/
def Segment.is_retroflex_body (s : Segment) : Bool :=
  checkB s [(.minus, .anterior), (.minus, .distributed)]

/-- `is_lamino_dental`, wrapped. -/
def Segment.is_lamino_dental (s : Segment) : Bool :=
  s.is_coronal && s.is_lamino_dental_body

/-- `is_apico_alveolar`, wrapped. -/
def Segment.is_apico_alveolar (s : Segment) : Bool :=
  s.is_coronal && s.is_apico_alveolar_body

/-- `is_palato_alveolar`, wrapped. -/
def Segment.is_palato_alveolar (s : Segment) : Bool :=
  s.is_coronal && s.is_palato_alveolar_body

/-- `is_retroflex`, wrapped. -/
def Segment.is_retroflex (s : Segment) : Bool :=
  s.is_coronal && s.is_retroflex_body

/-! ### Dorsal consonants: decorated with
`compose(reverse_condition(is_vowel), gen_condition(is_dorsal))` — raises
`ConditionNotMet` when the segment IS a vowel, or when it is not dorsal. -/

/-- `is_dorsal`: `check_features(['+dorsal'])`. -/
def Segment.is_dorsal (s : Segment) : Bool := checkB s [(.plus, .dorsal)]

/-- The shared dorsal-consonant wrapper. -/
def dorsalConsonant (s : Segment) (body : Bool) : Except PErr Bool :=
  if s.is_vowel then .error .conditionNotMet
  else if !s.is_dorsal then .error .conditionNotMet
  else .ok body

/-- `is_fronted_velar`. -/
def Segment.is_fronted_velar (s : Segment) : Except PErr Bool :=
  dorsalConsonant s
    (checkB s [(.plus, .high), (.minus, .low), (.plus, .front), (.minus, .back)])

/-- `is_central_velar`. -/
def Segment.is_central_velar (s : Segment) : Except PErr Bool :=
  dorsalConsonant s
    (checkB s [(.plus, .high), (.minus, .low), (.minus, .front), (.minus, .back)])

/-- `is_back_velar`. -/
def Segment.is_back_velar (s : Segment) : Except PErr Bool :=
  dorsalConsonant s
    (checkB s [(.plus, .high), (.minus, .low), (.minus, .front), (.plus, .back)])

/-- `is_uvular`. -/
def Segment.is_uvular (s : Segment) : Except PErr Bool :=
  dorsalConsonant s
    (checkB s [(.minus, .high), (.minus, .low), (.minus, .front), (.plus, .back)])

/-- `is_pharyngeal`. -/
def Segment.is_pharyngeal (s : Segment) : Except PErr Bool :=
  dorsalConsonant s
    (checkB s [(.minus, .high), (.plus, .low), (.minus, .front), (.plus, .back)])

/-! ### Glottal width (`natural_class('glottal_width')`, no condition) -/

/-- `is_spread_glottis`. -/
def Segment.is_spread_glottis (s : Segment) : Bool :=
  checkB s [(.plus, .spread_glottis), (.minus, .constricted_glottis)]

/-- `is_constricted_glottis`. -/
def Segment.is_constricted_glottis (s : Segment) : Bool :=
  checkB s [(.minus, .spread_glottis), (.plus, .constricted_glottis)]

/-- `is_normal_glottis`. -/
def Segment.is_normal_glottis (s : Segment) : Bool :=
  checkB s [(.minus, .spread_glottis), (.minus, .constricted_glottis)]

/-! ### Exclusivity checks and `Segment.__post_init__`
`check_exclusivity` sums the RAW registered predicates of a partition
(`sum(belongs.values())`) and demands the sum be exactly 1; when the
partition has a condition and the condition fails, the check is skipped. -/

/-- Membership sum of the `sonority` partition
(vowel/glide/liquid/nasal/obstruent). -/
def sonorityCount (s : Segment) : Nat :=
  s.is_vowel.toNat + s.is_glide.toNat + s.is_liquid.toNat
    + s.is_nasal.toNat + s.is_obstruent.toNat

/-- Membership sum of the `obstruent` partition (raw bodies). -/
def obstruentCount (s : Segment) : Nat :=
  s.is_stop_body.toNat + s.is_affricate_body.toNat + s.is_fricative_body.toNat

/-- Membership sum of the `backness` partition (raw bodies). -/
def backnessCount (s : Segment) : Nat :=
  s.is_front_body.toNat + s.is_central_body.toNat + s.is_back_body.toNat

/-- Membership sum of the `height` partition (raw bodies). -/
def heightCount (s : Segment) : Nat :=
  s.is_upper_high_vowel_body.toNat + s.is_lower_high_vowel_body.toNat
    + s.is_upper_mid_vowel_body.toNat + s.is_lower_mid_vowel_body.toNat
    + s.is_low_vowel_body.toNat

/-- Membership sum of the `duration` partition. -/
def durationCount (s : Segment) : Nat :=
  s.is_short.toNat + s.is_long.toNat + s.is_overlong.toNat

/-- Membership sum of the `coronal` partition (raw bodies). -/
def coronalCount (s : Segment) : Nat :=
  s.is_lamino_dental_body.toNat + s.is_apico_alveolar_body.toNat
    + s.is_palato_alveolar_body.toNat + s.is_retroflex_body.toNat

/-- Membership sum of the `glottal_width` partition. -/
def glottalCount (s : Segment) : Nat :=
  s.is_spread_glottis.toNat + s.is_constricted_glottis.toNat
    + s.is_normal_glottis.toNat

/-- Run an ordered list of (failure condition, raised error) checks: the
first check whose condition is true raises its error; if none fires,
construction succeeds. -/
def runChecks : List (Bool × PErr) → Except PErr Unit
  | [] => .ok ()
  | (c, e) :: rest => if c then .error e else runChecks rest

/-- The ordered checks of `Segment.__post_init__`: the five feature-level
checks (each raising `InvalidSegment`) in source order, then the
registered exclusivity checks in registration order (`sonority`,
`obstruent`, `backness`, `height`, `duration`, `coronal`,
`glottal_width`), each firing when its gate holds and the membership sum
is not 1 (a gated check whose condition fails is skipped). -/
def postInitChecks (s : Segment) : List (Bool × PErr) :=
  [ (!s.is_obstruent && s.delayed_release.isSome, .invalidSegment),
    (!s.is_coronal
      && (s.anterior.isSome || s.distributed.isSome || s.strident.isSome),
      .invalidSegment),
    (!s.is_dorsal
      && (s.high.isSome || s.low.isSome || s.back.isSome || s.front.isSome
          || s.tense.isSome), .invalidSegment),
    (s.is_low_vowel && s.tense.isSome && s.diacritics.isEmpty,
      .invalidSegment),
    (s.tense.isSome && !(s.is_glide || s.is_vowel || s.base == "ʍ"),
      .invalidSegment),
    (sonorityCount s != 1, .exclusivityFailure),
    (s.is_obstruent && obstruentCount s != 1, .exclusivityFailure),
    (s.is_vowel && backnessCount s != 1, .exclusivityFailure),
    (s.is_vowel && heightCount s != 1, .exclusivityFailure),
    (durationCount s != 1, .exclusivityFailure),
    (s.is_coronal && coronalCount s != 1, .exclusivityFailure),
    (glottalCount s != 1, .exclusivityFailure) ]

/-- `Segment.__post_init__` as a whole: run the checks; `.ok ()` means the
`Segment(...)` construction succeeds. -/
def validate (s : Segment) : Except PErr Unit := runChecks (postInitChecks s)

/-- `runChecks` succeeds exactly when no condition fires. -/
theorem runChecks_ok_iff (l : List (Bool × PErr)) :
    runChecks l = .ok () ↔ ∀ p ∈ l, p.1 = false := by
  induction l with
  | nil => simp [runChecks]
  | cons p rest ih =>
      obtain ⟨c, e⟩ := p
      by_cases hc : c = true
      · simp [runChecks, hc]
      · simp only [Bool.not_eq_true] at hc
        simp [runChecks, hc, ih]

/-- Everything a successful `__post_init__` guarantees: the feature-level
checks passed and every gated partition classifies into exactly one
member. -/
theorem validate_ok_facts (s : Segment) (h : validate s = .ok ()) :
    (s.is_obstruent = false → s.delayed_release = none)
    ∧ (s.is_coronal = false →
        s.anterior = none ∧ s.distributed = none ∧ s.strident = none)
    ∧ (s.is_dorsal = false →
        s.high = none ∧ s.low = none ∧ s.back = none ∧ s.front = none
          ∧ s.tense = none)
    ∧ sonorityCount s = 1
    ∧ (s.is_obstruent = true → obstruentCount s = 1)
    ∧ (s.is_vowel = true → backnessCount s = 1)
    ∧ (s.is_vowel = true → heightCount s = 1)
    ∧ durationCount s = 1
    ∧ (s.is_coronal = true → coronalCount s = 1)
    ∧ glottalCount s = 1 := by
  rw [validate, runChecks_ok_iff] at h
  simp only [postInitChecks, List.mem_cons, List.not_mem_nil, or_false,
    forall_eq_or_imp, forall_eq] at h
  obtain ⟨h1, h2, h3, _, _, h6, h7, h8, h9, h10, h11, h12⟩ := h
  simp only [Bool.and_eq_false_iff, Bool.not_eq_false', Bool.or_eq_false_iff,
    bne_eq_false_iff_eq, Bool.not_eq_true] at h1 h2 h3 h6 h7 h8 h9 h10 h11 h12
  have toNone : ∀ o : Option Bool, o.isSome = false → o = none := fun o ho =>
    Option.not_isSome_iff_eq_none.mp (by simp [ho])
  refine ⟨?_, ?_, ?_, h6, ?_, ?_, ?_, h10, ?_, h12⟩
  · intro hb
    rcases h1 with h1 | h1
    · simp [hb] at h1
    · exact toNone _ h1
  · intro hb
    rcases h2 with h2 | h2
    · simp [hb] at h2
    · exact ⟨toNone _ h2.1.1, toNone _ h2.1.2, toNone _ h2.2⟩
  · intro hb
    rcases h3 with h3 | h3
    · simp [hb] at h3
    · exact ⟨toNone _ h3.1.1.1.1, toNone _ h3.1.1.1.2, toNone _ h3.1.1.2,
        toNone _ h3.1.2, toNone _ h3.2⟩
  · intro hg
    rcases h7 with h7 | h7
    · simp [hg] at h7
    · exact h7
  · intro hg
    rcases h8 with h8 | h8
    · simp [hg] at h8
    · exact h8
  · intro hg
    rcases h9 with h9 | h9
    · simp [hg] at h9
    · exact h9
  · intro hg
    rcases h11 with h11 | h11
    · simp [hg] at h11
    · exact h11

/-! ### Diacritics (`diacritic.py`) -/

/-- Set one feature field to a plain bool, as `Diacritic.apply_to` does via
`kwargs[k] = v` followed by the dataclass re-construction (binary fields
store the bool, ternary fields store it as a specified value). -/
def setFeature (s : Segment) (n : FName) (b : Bool) : Segment :=
  match n with
  | .syllabic => { s with syllabic := b }
  | .consonantal => { s with consonantal := b }
  | .approximant => { s with approximant := b }
  | .sonorant => { s with sonorant := b }
  | .continuant => { s with continuant := b }
  | .delayed_release => { s with delayed_release := some b }
  | .trill => { s with trill := b }
  | .tap => { s with tap := b }
  | .dorsal => { s with dorsal := b }
  | .front => { s with front := some b }
  | .back => { s with back := some b }
  | .high => { s with high := some b }
  | .low => { s with low := some b }
  | .tense => { s with tense := some b }
  | .round => { s with round := b }
  | .long => { s with long := b }
  | .overlong => { s with overlong := b }
  | .nasal => { s with nasal := b }
  | .coronal => { s with coronal := b }
  | .anterior => { s with anterior := some b }
  | .distributed => { s with distributed := some b }
  | .strident => { s with strident := some b }
  | .lateral => { s with lateral := b }
  | .labial => { s with labial := b }
  | .labiodental => { s with labiodental := b }
  | .voice => { s with voice := b }
  | .spread_glottis => { s with spread_glottis := b }
  | .constricted_glottis => { s with constricted_glottis := b }

/-- How a diacritic transforms a segment: either the generic
`Diacritic.apply_to` driven by the class's `changes` dict (the
feature-delta, possibly empty), or `Retracted`'s custom `apply_to`. -/
inductive DiaKind where
  | delta (changes : List (FName × Bool))
  | retracted
  deriving DecidableEq, Repr

/-- A diacritic: its canonical surface form `ipa` and its transformation. -/
structure Dia where
  ipa : String
  kind : DiaKind
  deriving DecidableEq, Repr

/-- Python attribute lookup of `ipa` on a `Segment` value: the `Segment`
dataclass has no `ipa` field (its surface symbol field is `base`), so the
lookup yields no value — an `AttributeError` at `seg.ipa`
(`diacritic.py` line 92). -/
def Segment.ipaAttr (_ : Segment) : Option String := none

/-- The generic `Diacritic.apply_to`: copy the segment, append the
diacritic's canonical surface form to `diacritics`, overwrite each feature
in `changes`, and re-run `Segment.__post_init__` (whose errors
propagate). -/
def genericApply (ipa : String) (changes : List (FName × Bool))
    (seg : Segment) : Except PErr Segment :=
  let s1 : Segment := { seg with diacritics := seg.diacritics ++ [ipa] }
  let s2 : Segment := changes.foldl (fun s c => setFeature s c.1 c.2) s1
  match validate s2 with
  | .error e => .error e
  | .ok _ => .ok s2

/-- `Retracted.apply_to` as written in the source: its first statement
appends `seg.ipa` to the diacritics — but `seg` is the *Segment*, which
has no `ipa` attribute, so the call raises `AttributeError` before
anything else happens.  The (dead) remainder of the function tests
`if seg.is_dorsal:` without calling the method; a bound-method object is
always truthy, so that branch condition would be constantly true. -/
def retractedApply (seg : Segment) : Except PErr Segment :=
  match seg.ipaAttr with
  | none => .error .attributeError
  | some ipa =>
      let s1 : Segment := { seg with diacritics := seg.diacritics ++ [ipa] }
      let isDorsalBoundMethodTruthy : Bool := true
      let s2 : Segment :=
        if isDorsalBoundMethodTruthy then
          { s1 with front := some false, back := some true }
        else
          { s1 with anterior := some false, distributed := some true }
      match validate s2 with
      | .error e => .error e
      | .ok _ => .ok s2

/-- Dispatch `apply_to` for a diacritic. -/
def diaApply (d : Dia) (seg : Segment) : Except PErr Segment :=
  match d.kind with
  | .delta cs => genericApply d.ipa cs seg
  | .retracted => retractedApply seg

/-- The diacritic registry built by `DiacriticMetaclass`: canonical `ipa`
of every `Diacritic` subclass in definition order, plus each alternative
surface form mapping to the same diacritic (`Voiceless` also registers
`'̊'`).  The `@ignored` tone/length diacritics are registered with an
empty `changes` delta. -/
def diaRegistry : List (String × Dia) :=
  [ ("̩", ⟨"̩", .delta [(.syllabic, true)]⟩),
    ("̰", ⟨"̰",
      .delta [(.spread_glottis, false), (.constricted_glottis, true)]⟩),
    ("̤", ⟨"̤",
      .delta [(.spread_glottis, true), (.constricted_glottis, false)]⟩),
    ("̥", ⟨"̥", .delta [(.voice, false)]⟩),
    ("̊", ⟨"̥", .delta [(.voice, false)]⟩),
    ("̬", ⟨"̬", .delta [(.voice, true)]⟩),
    ("̠", ⟨"̠", .retracted⟩),
    ("̪", ⟨"̪",
      .delta [(.anterior, true), (.distributed, true)]⟩),
    ("̟", ⟨"̟", .delta [(.front, true), (.back, false)]⟩),
    ("ː", ⟨"ː", .delta [(.long, true)]⟩),
    ("ʰ", ⟨"ʰ",
      .delta [(.spread_glottis, true), (.constricted_glottis, false)]⟩),
    ("ʲ", ⟨"ʲ",
      .delta [(.dorsal, true), (.high, true), (.low, false), (.front, true),
        (.back, false)]⟩),
    ("ʷ", ⟨"ʷ", .delta [(.labial, true), (.round, true)]⟩),
    ("ˠ", ⟨"ˠ",
      .delta [(.dorsal, true), (.high, true), (.low, false), (.front, false),
        (.back, true)]⟩),
    ("ˤ", ⟨"ˤ",
      .delta [(.dorsal, true), (.high, false), (.low, true), (.front, false),
        (.back, true)]⟩),
    ("̃", ⟨"̃", .delta [(.nasal, true)]⟩),
    ("ʽ", ⟨"ʽ",
      .delta [(.coronal, true), (.anterior, true), (.distributed, true),
        (.strident, false)]⟩),
    ("ʼ", ⟨"ʼ",
      .delta [(.spread_glottis, false), (.constricted_glottis, true)]⟩),
    ("ˀ", ⟨"ˀ", .delta [(.constricted_glottis, true)]⟩),
    ("͡", ⟨"͡", .delta []⟩),
    ("͜", ⟨"͜", .delta []⟩),
    ("̯", ⟨"̯", .delta [(.syllabic, false)]⟩),
    ("̻", ⟨"̻", .delta [(.distributed, true)]⟩),
    ("̂", ⟨"̂", .delta []⟩),
    ("̌", ⟨"̌", .delta []⟩),
    ("́", ⟨"́", .delta []⟩),
    ("̄", ⟨"̄", .delta []⟩),
    ("̀", ⟨"̀", .delta []⟩),
    ("̞", ⟨"̞", .delta []⟩),
    ("̝", ⟨"̝", .delta []⟩),
    ("ˑ", ⟨"ˑ", .delta []⟩),
    ("̆", ⟨"̆", .delta []⟩),
    ("̚", ⟨"̚", .delta []⟩),
    ("̈", ⟨"̈", .delta []⟩),
    ("̹", ⟨"̹", .delta []⟩),
    ("̜", ⟨"̜", .delta []⟩) ]

/-- `get_diacritic`: registry lookup by exact surface string; `none` models
the `InvalidDiacritic` exception. -/
def lookupDia (raw : String) : Option Dia := diaRegistry.lookup raw

/-! ### Nphthong (`nphthong.py`) -/

/-- The `Nphthong` dataclass: an ordered list of segments. -/
structure Nphthong where
  vowels : List Segment
  deriving DecidableEq, Repr

/-- `Nphthong.__post_init__`: every member must be a vowel or a glide,
otherwise `InvalidNphthong` is raised.  No other condition is checked. -/
def nphthongMk (l : List Segment) : Except PErr Nphthong :=
  if l.all (fun v => v.is_vowel || v.is_glide) then .ok ⟨l⟩
  else .error .invalidNphthong

/-! ### The decomposer (`process.py`, `FeatureProcessor.process`) -/

/-- `Segment.__str__`: the rendered surface string, base plus concatenated
diacritics. -/
def Segment.str (s : Segment) : String := s.base ++ String.join s.diacritics

/-- The decomposer's environment: the prebuilt base-segment table (surface
string → fully specified Segment, in insertion order) and Unicode
canonical decomposition (`unicodedata.normalize('NFD', ·)`), which is
external to the repository and therefore a parameter of the model. -/
structure ProcEnv where
  bases : List (String × Segment)
  nfd : String → String

/-- The anchored base regex `^(k1|k2|...)` with keys sorted longest-first:
among the table entries whose key prefixes the input, return the one with
the longest key (earlier entries win ties, matching the stable sort over
the insertion order). -/
def matchBase : List (String × Segment) → List Char → Option (String × Segment)
  | [], _ => none
  | p :: rest, s =>
      match matchBase rest s with
      | none => if p.1.data.isPrefixOf s then some p else none
      | some q =>
          if p.1.data.isPrefixOf s ∧ q.1.length ≤ p.1.length then some p
          else some q

/-- `safe_get_diacritic`: when at least two codepoints remain
(`idx < len(raw) - 1`), try the two-codepoint surface form first, then
fall back to one codepoint; `none` models `InvalidDiacritic`. -/
def safeGetDiacritic : List Char → Option Dia
  | c1 :: c2 :: _ =>
      match lookupDia (String.mk [c1, c2]) with
      | some d => some d
      | none => lookupDia (String.mk [c1])
  | [c1] => lookupDia (String.mk [c1])
  | [] => none

/-- The `while i < len(raw)` loop of `process`, over the remaining suffix.
`cur` is `bases[-1]`, `acc` the earlier bases.  On a diacritic match the
source runs `bases[-1] = d.apply_to(bases[-1])` (whose segment errors
propagate) and then `i += len(d)` — but `Diacritic` defines no `__len__`,
so `len(d)` raises `TypeError`; the loop therefore never continues past a
successful diacritic application.  On `InvalidDiacritic` a new base is
matched and the cursor advances by its length.  `fuel` bounds the number
of iterations (`outOfFuel` is unreachable when every base key is
nonempty and `fuel` is at least the remaining length). -/
def procLoop (env : ProcEnv) :
    Nat → List Char → Segment → List Segment → Except PErr (List Segment)
  | _, [], cur, acc => .ok (acc ++ [cur])
  | 0, _ :: _, _, _ => .error .outOfFuel
  | fuel + 1, c :: rest, cur, acc =>
      match safeGetDiacritic (c :: rest) with
      | some d =>
          match diaApply d cur with
          | .error e => .error e
          | .ok _ => .error .typeError
      | none =>
          match matchBase env.bases (c :: rest) with
          | none => .error .invalidBaseSegment
          | some p =>
              procLoop env fuel ((c :: rest).drop p.1.length) p.2 (acc ++ [cur])

/-- The decomposer's result: a single `Segment` or an `Nphthong`. -/
inductive PResult where
  | seg (s : Segment)
  | nph (n : Nphthong)
  deriving DecidableEq, Repr

/-- The tail of `process`: `if len(bases) == 1: return bases[0]` else build
`Nphthong(bases)` (whose construction may itself fail; the empty case is
unreachable, the loop always returns at least one base). -/
def finishBases : List Segment → Except PErr PResult
  | [b] => .ok (.seg b)
  | [] => (nphthongMk []).map PResult.nph
  | b1 :: b2 :: bs => (nphthongMk (b1 :: b2 :: bs)).map PResult.nph

/-- `FeatureProcessor.process`: normalize, match the leading base, run the
loop, and return the single segment or the `Nphthong`. -/
def process (env : ProcEnv) (raw : String) : Except PErr PResult :=
  let n : List Char := (env.nfd raw).data
  match matchBase env.bases n with
  | none => .error .invalidBaseSegment
  | some p =>
      match procLoop env n.length (n.drop p.1.length) p.2 [] with
      | .error e => .error e
      | .ok bases => finishBases bases

/-! ### Concrete sample segments

The base-segment table is data external to the repository (parsed from the
Hayes feature spreadsheet, out of scope per the spec); the following are
sample table entries consistent with the spec's scenarios ("t" an
obstruent stop, "a" and "i" vowels).  All claim theorems that quantify
over segments or environments are independent of these values; they serve
as witnesses. -/

/-- A voiceless alveolar stop "t". -/
def tSeg : Segment where
  base := "t"
  syllabic := false
  consonantal := true
  approximant := false
  sonorant := false
  continuant := false
  delayed_release := some false
  trill := false
  tap := false
  dorsal := false
  front := none
  back := none
  high := none
  low := none
  tense := none
  round := false
  long := false
  overlong := false
  nasal := false
  coronal := true
  anterior := some true
  distributed := some false
  strident := some false
  lateral := false
  labial := false
  labiodental := false
  voice := false
  spread_glottis := false
  constricted_glottis := false
  diacritics := []

/-- A low front vowel "a" (low vowels have unspecified tense). -/
def aSeg : Segment where
  base := "a"
  syllabic := true
  consonantal := false
  approximant := true
  sonorant := true
  continuant := true
  delayed_release := none
  trill := false
  tap := false
  dorsal := true
  front := some true
  back := some false
  high := some false
  low := some true
  tense := none
  round := false
  long := false
  overlong := false
  nasal := false
  coronal := false
  anterior := none
  distributed := none
  strident := none
  lateral := false
  labial := false
  labiodental := false
  voice := true
  spread_glottis := false
  constricted_glottis := false
  diacritics := []

/-- An upper high front vowel "i". -/
def iSeg : Segment where
  base := "i"
  syllabic := true
  consonantal := false
  approximant := true
  sonorant := true
  continuant := true
  delayed_release := none
  trill := false
  tap := false
  dorsal := true
  front := some true
  back := some false
  high := some true
  low := some false
  tense := some true
  round := false
  long := false
  overlong := false
  nasal := false
  coronal := false
  anterior := none
  distributed := none
  strident := none
  lateral := false
  labial := false
  labiodental := false
  voice := true
  spread_glottis := false
  constricted_glottis := false
  diacritics := []

/-- `tSeg` with `coronal` cleared but the coronal features left specified:
the spec's own invalid-construction scenario. -/
def badSeg : Segment := { tSeg with coronal := false }

/-- A sample decomposer environment over the three sample base segments;
its `nfd` is the identity (all sample inputs are already decomposed). -/
def envT : ProcEnv := ⟨[("t", tSeg), ("a", aSeg), ("i", iSeg)], id⟩

instance {ε α : Type} [DecidableEq ε] [DecidableEq α] :
    DecidableEq (Except ε α)
  | .error a, .error b =>
      if h : a = b then .isTrue (by rw [h])
      else .isFalse (fun hc => h (Except.error.inj hc))
  | .error _, .ok _ => .isFalse (fun hc => Except.noConfusion hc)
  | .ok _, .error _ => .isFalse (fun hc => Except.noConfusion hc)
  | .ok a, .ok b =>
      if h : a = b then .isTrue (by rw [h])
      else .isFalse (fun hc => h (Except.ok.inj hc))

/-- Each successful `procLoop` run returns strictly more bases than it was
given: at least the current one is appended. -/
theorem procLoop_ok_length (env : ProcEnv) :
    ∀ (fuel : Nat) (chars : List Char) (cur : Segment) (acc l : List Segment),
      procLoop env fuel chars cur acc = .ok l → acc.length < l.length := by
  intro fuel
  induction fuel with
  | zero =>
      intro chars cur acc l h
      cases chars with
      | nil =>
          simp only [procLoop, Except.ok.injEq] at h
          simp [← h]
      | cons c rest => exact Except.noConfusion h
  | succ fuel ih =>
      intro chars cur acc l h
      cases chars with
      | nil =>
          simp only [procLoop, Except.ok.injEq] at h
          simp [← h]
      | cons c rest =>
          simp only [procLoop] at h
          rcases hd : safeGetDiacritic (c :: rest) with _ | d <;>
            simp only [hd] at h
          · rcases hb : matchBase env.bases (c :: rest) with _ | p <;>
              simp only [hb] at h
            · exact Except.noConfusion h
            · have := ih _ _ _ _ h
              simp only [List.length_append, List.length_singleton] at this
              omega
          · rcases ha : diaApply d cur with e | s2 <;> simp only [ha] at h <;>
              exact Except.noConfusion h

/-- A successful `procLoop` run that adds exactly one base consumed no
input: the remaining suffix was empty and the result is `acc ++ [cur]`. -/
theorem procLoop_ok_singleton (env : ProcEnv) (fuel : Nat)
    (chars : List Char) (cur : Segment) (acc l : List Segment)
    (h : procLoop env fuel chars cur acc = .ok l)
    (hlen : l.length = acc.length + 1) : chars = [] ∧ l = acc ++ [cur] := by
  cases chars with
  | nil =>
      cases fuel <;>
        · simp only [procLoop, Except.ok.injEq] at h
          exact ⟨rfl, h.symm⟩
  | cons c rest =>
      exfalso
      cases fuel with
      | zero => exact Except.noConfusion h
      | succ fuel =>
          simp only [procLoop] at h
          rcases hd : safeGetDiacritic (c :: rest) with _ | d <;>
            simp only [hd] at h
          · rcases hb : matchBase env.bases (c :: rest) with _ | p <;>
              simp only [hb] at h
            · exact Except.noConfusion h
            · have := procLoop_ok_length env _ _ _ _ _ h
              simp only [List.length_append, List.length_singleton] at this
              omega
          · rcases ha : diaApply d cur with e | s2 <;> simp only [ha] at h <;>
              exact Except.noConfusion h

/-- Bridge between the boolean `isPrefixOf` used by the embedding and the
prefix relation. -/
theorem isPrefixOfIff {l1 l2 : List Char} :
    l1.isPrefixOf l2 = true ↔ l1 <+: l2 :=
  List.isPrefixOf_iff_prefix

/-- `matchBase` only returns entries of the table. -/
theorem matchBase_mem :
    ∀ (bs : List (String × Segment)) (s : List Char) (p : String × Segment),
      matchBase bs s = some p → p ∈ bs := by
  intro bs
  induction bs with
  | nil => intro s p h; exact Option.noConfusion h
  | cons q rest ih =>
      intro s p h
      simp only [matchBase] at h
      rcases hr : matchBase rest s with _ | r <;> simp only [hr] at h
      · split at h
        · cases h; exact List.mem_cons_self _ _
        · exact Option.noConfusion h
      · split at h <;> cases h
        · exact List.mem_cons_self _ _
        · exact List.mem_cons_of_mem q (ih s _ hr)

/-- The key of a `matchBase` result prefixes the input. -/
theorem matchBase_isPre :
    ∀ (bs : List (String × Segment)) (s : List Char) (p : String × Segment),
      matchBase bs s = some p → p.1.data <+: s := by
  intro bs
  induction bs with
  | nil => intro s p h; exact Option.noConfusion h
  | cons q rest ih =>
      intro s p h
      simp only [matchBase] at h
      rcases hr : matchBase rest s with _ | r <;> simp only [hr] at h
      · by_cases hc : q.1.data.isPrefixOf s = true
        · rw [if_pos hc] at h
          cases h
          exact isPrefixOfIff.mp hc
        · rw [if_neg hc] at h
          exact Option.noConfusion h
      · by_cases hc : q.1.data.isPrefixOf s = true ∧ r.1.length ≤ q.1.length
        · rw [if_pos hc] at h
          cases h
          exact isPrefixOfIff.mp hc.1
        · rw [if_neg hc] at h
          cases h
          exact ih s _ hr

/-- On an input that IS one of the table's keys, `matchBase` returns exactly
that entry (keys are distinct, and no other key both prefixes the key and
is at least as long). -/
theorem matchBase_self :
    ∀ (bs : List (String × Segment)) (k : String) (sg : Segment),
      (k, sg) ∈ bs → (bs.map Prod.fst).Nodup →
      matchBase bs k.data = some (k, sg) := by
  intro bs
  induction bs with
  | nil => intro k sg hmem _; exact absurd hmem (List.not_mem_nil _)
  | cons q rest ih =>
      intro k sg hmem hnodup
      have hnd2 : (rest.map Prod.fst).Nodup := (List.nodup_cons.mp hnodup).2
      have hself : (String.data k).isPrefixOf k.data = true :=
        isPrefixOfIff.mpr (List.prefix_refl _)
      rcases List.mem_cons.mp hmem with hq | hmem2
      · subst hq
        simp only [matchBase]
        rcases hr : matchBase rest k.data with _ | r <;> simp only [hr]
        · rw [if_pos hself]
        · have hpre : r.1.data <+: k.data := matchBase_isPre rest k.data r hr
          have hlen : r.1.length ≤ k.length := hpre.length_le
          rw [if_pos ⟨hself, hlen⟩]
      · have hknotq : q.1 ≠ k := by
          intro hqk
          have hin : q.1 ∈ rest.map Prod.fst :=
            hqk ▸ List.mem_map_of_mem Prod.fst hmem2
          exact (List.nodup_cons.mp hnodup).1 hin
        simp only [matchBase, ih k sg hmem2 hnd2]
        have hcond : ¬(q.1.data.isPrefixOf k.data = true ∧ k.length ≤ q.1.length) := by
          rintro ⟨hpre, hlen⟩
          have hpre2 : q.1.data <+: k.data := isPrefixOfIff.mp hpre
          have hdeq : q.1.data = k.data :=
            hpre2.eq_of_length (Nat.le_antisymm hpre2.length_le hlen)
          exact hknotq (String.ext hdeq)
        rw [if_neg hcond]
/-! ## Claim theorems -/

/-- Claim C2: for every successfully constructed Segment whose base is not
one of the enumerated exception symbols, each registered natural-class
partition classifies it into exactly one member whenever its gate holds
(sonority and glottal width ungated, obstruent subclass gated on
`is_obstruent`, backness and height on `is_vowel`, coronal subclass on
`is_coronal`); and a Segment whose membership sum under a holding gate
differs from 1 cannot be constructed. -/
theorem c2_exclusivity_invariant (s : Segment) :
    (validate s = .ok () → s.base ∉ (["ʍ", "ɦ", "h"] : List String) →
      s.is_vowel.toNat + s.is_glide.toNat + s.is_liquid.toNat
          + s.is_nasal.toNat + s.is_obstruent.toNat = 1
        ∧ (s.is_obstruent = true →
            s.is_stop.toNat + s.is_affricate.toNat + s.is_fricative.toNat = 1)
        ∧ (s.is_vowel = true →
            s.is_front.toNat + s.is_central.toNat + s.is_back.toNat = 1)
        ∧ (s.is_vowel = true →
            s.is_upper_high_vowel.toNat + s.is_lower_high_vowel.toNat
              + s.is_upper_mid_vowel.toNat + s.is_lower_mid_vowel.toNat
              + s.is_low_vowel.toNat = 1)
        ∧ (s.is_coronal = true →
            s.is_lamino_dental.toNat + s.is_apico_alveolar.toNat
              + s.is_palato_alveolar.toNat + s.is_retroflex.toNat = 1)
        ∧ s.is_spread_glottis.toNat + s.is_constricted_glottis.toNat
            + s.is_normal_glottis.toNat = 1)
    ∧ ((sonorityCount s ≠ 1
        ∨ (s.is_obstruent = true ∧ obstruentCount s ≠ 1)
        ∨ (s.is_vowel = true ∧ backnessCount s ≠ 1)
        ∨ (s.is_vowel = true ∧ heightCount s ≠ 1)
        ∨ (s.is_coronal = true ∧ coronalCount s ≠ 1)
        ∨ glottalCount s ≠ 1) → validate s ≠ .ok ()) := by
  constructor
  · intro hok _
    obtain ⟨-, -, -, hson, hobs, hbk, hht, -, hcor, hglo⟩ :=
      validate_ok_facts s hok
    refine ⟨hson, ?_, ?_, ?_, ?_, hglo⟩
    · intro hg
      simpa [Segment.is_stop, Segment.is_affricate, Segment.is_fricative, hg,
        obstruentCount] using hobs hg
    · intro hg
      simpa [Segment.is_front, Segment.is_central, Segment.is_back, hg,
        backnessCount] using hbk hg
    · intro hg
      simpa [Segment.is_upper_high_vowel, Segment.is_lower_high_vowel,
        Segment.is_upper_mid_vowel, Segment.is_lower_mid_vowel,
        Segment.is_low_vowel, hg, heightCount] using hht hg
    · intro hg
      simpa [Segment.is_lamino_dental, Segment.is_apico_alveolar,
        Segment.is_palato_alveolar, Segment.is_retroflex, hg,
        coronalCount] using hcor hg
  · intro hv hok
    obtain ⟨-, -, -, hson, hobs, hbk, hht, -, hcor, hglo⟩ :=
      validate_ok_facts s hok
    rcases hv with hv | hv | hv | hv | hv | hv
    · exact hv hson
    · exact hv.2 (hobs hv.1)
    · exact hv.2 (hbk hv.1)
    · exact hv.2 (hht hv.1)
    · exact hv.2 (hcor hv.1)
    · exact hv hglo

/-- Witness for C2 at the concrete obstruent `tSeg` ("t"): its hypotheses
(successful construction, base not an exception symbol) hold and the
partition sums are 1. -/
theorem c2_exclusivity_witness :
    sonorityCount tSeg = 1 ∧ obstruentCount tSeg = 1
      ∧ glottalCount tSeg = 1 := by
  have h := (c2_exclusivity_invariant tSeg).1 rfl (by decide)
  exact ⟨h.1, by simpa [obstruentCount, Segment.is_stop, Segment.is_affricate,
    Segment.is_fricative] using h.2.1 rfl, h.2.2.2.2.2⟩

/-- Claim C5: every successfully constructed Segment has `delayed_release`
unspecified unless it is an obstruent, the coronal features unspecified
unless it is coronal, and the dorsal features unspecified unless it is
dorsal; a Segment violating any of these fails construction with
`InvalidSegment`. -/
theorem c5_applicability_invariant (s : Segment) :
    (validate s = .ok () →
      (s.is_obstruent = false → s.delayed_release = none)
      ∧ (s.is_coronal = false →
          s.anterior = none ∧ s.distributed = none ∧ s.strident = none)
      ∧ (s.is_dorsal = false →
          s.high = none ∧ s.low = none ∧ s.back = none ∧ s.front = none
            ∧ s.tense = none))
    ∧ ((s.is_obstruent = false ∧ s.delayed_release ≠ none)
        ∨ (s.is_coronal = false
            ∧ (s.anterior ≠ none ∨ s.distributed ≠ none ∨ s.strident ≠ none))
        ∨ (s.is_dorsal = false
            ∧ (s.high ≠ none ∨ s.low ≠ none ∨ s.back ≠ none ∨ s.front ≠ none
                ∨ s.tense ≠ none))
      → validate s = .error .invalidSegment) := by
  constructor
  · intro hok
    obtain ⟨h1, h2, h3, -, -, -, -, -, -, -⟩ := validate_ok_facts s hok
    exact ⟨h1, h2, h3⟩
  · intro hv
    by_cases h1 : (!s.is_obstruent && s.delayed_release.isSome) = true
    · simp [validate, postInitChecks, runChecks, h1]
    · by_cases h2 : (!s.is_coronal && (s.anterior.isSome || s.distributed.isSome
          || s.strident.isSome)) = true
      · simp [validate, postInitChecks, runChecks, h1, h2]
      · have h3 : (!s.is_dorsal && (s.high.isSome || s.low.isSome
            || s.back.isSome || s.front.isSome || s.tense.isSome)) = true := by
          rcases hv with hv | hv | hv
          · exact absurd (by
              simp [hv.1, Option.ne_none_iff_isSome.mp hv.2]) h1
          · refine absurd ?_ h2
            rcases hv.2 with hx | hx | hx <;>
              simp [hv.1, Option.ne_none_iff_isSome.mp hx]
          · rcases hv.2 with hx | hx | hx | hx | hx <;>
              simp [hv.1, Option.ne_none_iff_isSome.mp hx]
        simp [validate, postInitChecks, runChecks, h1, h2, h3]

/-- Witness for C5: the spec's own invalid-construction scenario — clearing
`coronal` on "t" while its coronal features stay specified makes
construction fail with `InvalidSegment`. -/
theorem c5_applicability_witness :
    validate badSeg = .error .invalidSegment :=
  (c5_applicability_invariant badSeg).2
    (Or.inr (Or.inl ⟨by decide, Or.inl (by decide)⟩))

/-- Claim C9: the `duration` partition (`is_short` = not long, `is_long` =
long and not overlong, `is_overlong` = overlong) is registered ungated and
enforced at every construction: every valid Segment falls in exactly one
of the three classes, and e.g. `long = false, overlong = true` is not
constructible. -/
theorem c9_duration_partition (s : Segment) :
    s.is_short = (s.long == false)
    ∧ s.is_long = (s.long == true && s.overlong == false)
    ∧ s.is_overlong = (s.overlong == true)
    ∧ (validate s = .ok () →
        s.is_short.toNat + s.is_long.toNat + s.is_overlong.toNat = 1)
    ∧ (s.long = false → s.overlong = true → validate s ≠ .ok ()) := by
  have hshort : s.is_short = (s.long == false) := by
    simp [Segment.is_short, checkB, entryMatches, entryVal, featEq, signVal,
      Segment.get]
  have hlong : s.is_long = (s.long == true && s.overlong == false) := by
    simp [Segment.is_long, checkB, entryMatches, entryVal, featEq, signVal,
      Segment.get]
  have hover : s.is_overlong = (s.overlong == true) := by
    simp [Segment.is_overlong, checkB, entryMatches, entryVal, featEq, signVal,
      Segment.get]
  refine ⟨hshort, hlong, hover, ?_, ?_⟩
  · intro hok
    exact (validate_ok_facts s hok).2.2.2.2.2.2.2.1
  · intro hl ho hok
    have hdur : durationCount s = 1 :=
      (validate_ok_facts s hok).2.2.2.2.2.2.2.1
    rw [durationCount, hshort, hlong, hover, hl, ho] at hdur
    simp at hdur

/-- Witness for C9 at the concrete vowel `aSeg` ("a"): exactly one duration
class holds for a validly constructed segment. -/
theorem c9_duration_witness :
    aSeg.is_short.toNat + aSeg.is_long.toNat + aSeg.is_overlong.toNat = 1 :=
  (c9_duration_partition aSeg).2.2.2.1 rfl

/-- Claim C10: `check_features` with the `0` sign for a binary feature
(such as `"0voice"`) raises `TypeError` for every Segment, because
`Feature.__eq__` rejects comparison with a value outside the binary
feature's allowed set — it does not return `False`. -/
theorem c10_zero_sign_binary_type_error (s : Segment) (n : FName) (b : Bool)
    (hbin : s.get n = .bin b) :
    cf s [(.zero, n)] = .error .typeError
      ∧ cf s [(.zero, n)] ≠ .ok false := by
  have h : cf s [(.zero, n)] = .error .typeError := by
    simp [cf, entryVal, hbin, signVal, featEq]
  exact ⟨h, by simp [h]⟩

/-- Witness for C10: `"0voice"` on the concrete segment "t". -/
theorem c10_zero_sign_witness :
    cf tSeg [(.zero, .voice)] = .error .typeError :=
  (c10_zero_sign_binary_type_error tSeg .voice false rfl).1

/-- Claim C8: `check_features` returns `True` iff every entry of the signed
feature list matches the segment's corresponding feature; in particular it
returns `True` on the empty list and `False` as soon as the first
mismatching entry is reached (entries before it all matching). -/
theorem c8_check_features_iff (s : Segment) (l : List SignedFeat) :
    (cf s l = .ok true ↔ ∀ e ∈ l, entryVal s e = .ok true)
    ∧ cf s [] = .ok true
    ∧ ∀ (pre post : List SignedFeat) (e : SignedFeat),
        (∀ x ∈ pre, entryVal s x = .ok true) → entryVal s e = .ok false →
        cf s (pre ++ e :: post) = .ok false := by
  refine ⟨?_, rfl, ?_⟩
  · induction l with
    | nil => simp [cf]
    | cons e rest ih =>
        constructor
        · intro h x hx
          rw [cf] at h
          rcases hev : entryVal s e with err | b <;> rw [hev] at h
          · exact Except.noConfusion h
          · cases b
            · exact absurd (Except.ok.inj h) (by simp)
            · rcases List.mem_cons.mp hx with hx | hx
              · rw [hx]; exact hev
              · exact ih.mp h x hx
        · intro h
          rw [cf]
          have he : entryVal s e = .ok true := h e (List.mem_cons_self _ _)
          rw [he]
          exact ih.mpr fun x hx => h x (List.mem_cons_of_mem e hx)
  · intro pre
    induction pre with
    | nil =>
        intro post e _ hbad
        simp only [List.nil_append, cf, hbad]
    | cons x pre ih =>
        intro post e hpre hbad
        have hx : entryVal s x = .ok true := hpre x (List.mem_cons_self _ _)
        simp only [List.cons_append, cf, hx]
        exact ih post e (fun y hy => hpre y (List.mem_cons_of_mem x hy)) hbad

/-- Witness for C8: on "t", `-voice` matches and `+syllabic` then
mismatches, so the list returns `False`. -/
theorem c8_check_features_witness :
    cf tSeg [(.minus, .voice), (.plus, .syllabic)] = .ok false :=
  (c8_check_features_iff tSeg []).2.2 [(.minus, .voice)] []
    (.plus, .syllabic) (by decide) (by decide)

/-- Counterexample to claim C7: the valid non-liquid Segment "t" makes the
gate of `is_trill` fail, and `is_trill` then does not return a plain
boolean at all — the `ConditionNotMet` control signal is raised to the
caller (`gen_condition` raises; only `natural_class`-gated predicates
return `False`). -/
theorem c7_trill_raises_counterexample :
    validate tSeg = .ok () ∧ tSeg.is_liquid = false
      ∧ tSeg.is_trill = .error .conditionNotMet
      ∧ ¬ ∃ b : Bool, tSeg.is_trill = .ok b := by
  refine ⟨rfl, rfl, rfl, ?_⟩
  rintro ⟨b, hb⟩
  rw [show tSeg.is_trill = .error .conditionNotMet from rfl] at hb
  exact Except.noConfusion hb

/-- Amended C7: predicates gated through a `natural_class` condition
(obstruent, backness, height and coronal subclasses) return `False` when
their gate fails, but the predicates decorated with `gen_condition`
(`is_trill`, `is_tap`, `is_round`, `is_nasalized` and the five
dorsal-consonant predicates) raise `ConditionNotMet` to their caller when
their gate fails (for the dorsal-consonant ones: when the segment is a
vowel or is not dorsal), and return a plain boolean when it holds. -/
theorem c7_gating_amended (s : Segment) :
    (s.is_liquid = false →
      s.is_trill = .error .conditionNotMet
        ∧ s.is_tap = .error .conditionNotMet)
    ∧ (s.is_liquid = true →
        (∃ b, s.is_trill = .ok b) ∧ (∃ b, s.is_tap = .ok b))
    ∧ (s.is_vowel = false →
        s.is_round = .error .conditionNotMet
          ∧ s.is_nasalized = .error .conditionNotMet)
    ∧ (s.is_vowel = true →
        (∃ b, s.is_round = .ok b) ∧ (∃ b, s.is_nasalized = .ok b))
    ∧ (s.is_vowel = true ∨ s.is_dorsal = false →
        s.is_fronted_velar = .error .conditionNotMet
          ∧ s.is_central_velar = .error .conditionNotMet
          ∧ s.is_back_velar = .error .conditionNotMet
          ∧ s.is_uvular = .error .conditionNotMet
          ∧ s.is_pharyngeal = .error .conditionNotMet)
    ∧ (s.is_obstruent = false →
        s.is_stop = false ∧ s.is_affricate = false ∧ s.is_fricative = false)
    ∧ (s.is_vowel = false →
        s.is_front = false ∧ s.is_central = false ∧ s.is_back = false
          ∧ s.is_upper_high_vowel = false ∧ s.is_lower_high_vowel = false
          ∧ s.is_upper_mid_vowel = false ∧ s.is_lower_mid_vowel = false
          ∧ s.is_low_vowel = false)
    ∧ (s.is_coronal = false →
        s.is_lamino_dental = false ∧ s.is_apico_alveolar = false
          ∧ s.is_palato_alveolar = false ∧ s.is_retroflex = false) := by
  refine ⟨?_, ?_, ?_, ?_, ?_, ?_, ?_, ?_⟩
  · intro h
    simp [Segment.is_trill, Segment.is_tap, h]
  · intro h
    exact ⟨⟨checkB s [(.plus, .trill)], by simp [Segment.is_trill, h]⟩,
      ⟨checkB s [(.plus, .tap)], by simp [Segment.is_tap, h]⟩⟩
  · intro h
    simp [Segment.is_round, Segment.is_nasalized, h]
  · intro h
    exact ⟨⟨checkB s [(.plus, .round)], by simp [Segment.is_round, h]⟩,
      ⟨checkB s [(.plus, .nasal)], by simp [Segment.is_nasalized, h]⟩⟩
  · intro h
    rcases h with h | h <;>
      simp [Segment.is_fronted_velar, Segment.is_central_velar,
        Segment.is_back_velar, Segment.is_uvular, Segment.is_pharyngeal,
        dorsalConsonant, h]
  · intro h
    simp [Segment.is_stop, Segment.is_affricate, Segment.is_fricative, h]
  · intro h
    simp [Segment.is_front, Segment.is_central, Segment.is_back,
      Segment.is_upper_high_vowel, Segment.is_lower_high_vowel,
      Segment.is_upper_mid_vowel, Segment.is_lower_mid_vowel,
      Segment.is_low_vowel, h]
  · intro h
    simp [Segment.is_lamino_dental, Segment.is_apico_alveolar,
      Segment.is_palato_alveolar, Segment.is_retroflex, h]

/-- Witness for the amended C7 at "t": `is_trill` raises while `is_front`
(a `natural_class`-gated predicate on a failed gate) returns `False`. -/
theorem c7_gating_witness :
    tSeg.is_trill = .error .conditionNotMet ∧ tSeg.is_front = false :=
  ⟨((c7_gating_amended tSeg).1 rfl).1,
    ((c7_gating_amended tSeg).2.2.2.2.2.2.1 rfl).1⟩

/-- Counterexample to claim C6: an `Nphthong` holding a SINGLE vowel
segment is constructed successfully — `Nphthong.__post_init__` checks only
that every member is a vowel or glide, never the length, so "at least 2"
is not enforced at construction. -/
theorem c6_singleton_nphthong_counterexample :
    validate aSeg = .ok () ∧ aSeg.is_vowel = true
      ∧ nphthongMk [aSeg] = .ok ⟨[aSeg]⟩
      ∧ ¬ 2 ≤ ([aSeg] : List Segment).length := by
  exact ⟨rfl, rfl, rfl, by decide⟩

/-- Amended C6: `Nphthong` construction succeeds iff every member is a
vowel or glide (a member that is neither makes it fail with
`InvalidNphthong`) — the sequence length is NOT checked; the "at least 2"
holds only for Nphthongs built by the Decomposer, which builds one exactly
when more than one base was produced. -/
theorem c6_nphthong_amended (l : List Segment) :
    (nphthongMk l = .ok ⟨l⟩ ↔ ∀ v ∈ l, (v.is_vowel || v.is_glide) = true)
    ∧ (∀ v ∈ l, v.is_vowel = false → v.is_glide = false →
        nphthongMk l = .error .invalidNphthong)
    ∧ ∀ (env : ProcEnv) (raw : String) (n : Nphthong),
        process env raw = .ok (.nph n) → 2 ≤ n.vowels.length := by
  refine ⟨?_, ?_, ?_⟩
  · rw [nphthongMk]
    by_cases hall : l.all (fun v => v.is_vowel || v.is_glide) = true
    · rw [if_pos hall]
      simp only [List.all_eq_true] at hall
      exact ⟨fun _ => hall, fun _ => rfl⟩
    · rw [if_neg hall]
      simp only [List.all_eq_true, not_forall] at hall
      constructor
      · intro h; exact Except.noConfusion h
      · intro h
        obtain ⟨v, hv, hnv⟩ := hall
        exact absurd (h v hv) hnv
  · intro v hv hnvow hngl
    rw [nphthongMk]
    have hnall : ¬ l.all (fun v => v.is_vowel || v.is_glide) = true := by
      simp only [List.all_eq_true]
      intro hall
      have hb := hall v hv
      rw [hnvow, hngl] at hb
      exact Bool.noConfusion hb
    rw [if_neg hnall]
  · intro env raw n h
    rw [process] at h
    rcases hm : matchBase env.bases (env.nfd raw).data with _ | p <;>
      simp only [hm] at h
    · exact Except.noConfusion h
    · rcases hl : procLoop env (env.nfd raw).data.length
          ((env.nfd raw).data.drop p.1.length) p.2 [] with e | bases <;>
        simp only [hl] at h
      · exact Except.noConfusion h
      · have hlen : 0 < bases.length :=
          procLoop_ok_length env _ _ _ _ _ hl
        rcases bases with _ | ⟨b1, _ | ⟨b2, bs⟩⟩
        · simp at hlen
        · rw [finishBases] at h
          exact PResult.noConfusion (Except.ok.inj h)
        · rw [finishBases] at h
          rcases hn : nphthongMk (b1 :: b2 :: bs) with e | m <;>
            simp only [hn, Except.map_error, Except.map_ok] at h
          · exact Except.noConfusion h
          · have hm2 : m = ⟨b1 :: b2 :: bs⟩ := by
              rw [nphthongMk] at hn
              split at hn
              · exact (Except.ok.inj hn).symm
              · exact Except.noConfusion hn
            have hnn : n = m := (PResult.nph.inj (Except.ok.inj h)).symm
            rw [hnn, hm2]
            simp

/-- Witness for the amended C6: the two-vowel decomposition "ai" yields an
Nphthong of length ≥ 2, and a singleton list of vowels passes the
membership check. -/
theorem c6_nphthong_witness :
    2 ≤ (Nphthong.mk [aSeg, iSeg]).vowels.length
      ∧ nphthongMk [aSeg] = .ok ⟨[aSeg]⟩ :=
  ⟨(c6_nphthong_amended []).2.2 envT "ai" ⟨[aSeg, iSeg]⟩ rfl,
    (c6_nphthong_amended [aSeg]).1.mpr (by decide)⟩

/-- Claim C4 is a code bug: `Retracted.apply_to` reads `seg.ipa`, but the
target `Segment` has no `ipa` attribute (the class's own surface form is
`self.ipa`), so applying the retracted diacritic raises `AttributeError`
for EVERY segment — dorsal (like "a") or not (like "t") — instead of
appending the mark and branching on dorsality; decomposing the spec's own
scenario string "a̠" therefore also fails.  (Had the lookup succeeded, the
branch `if seg.is_dorsal:` tests the bound method itself, which is always
truthy, so the non-dorsal branch is unreachable as well.) -/
theorem c4_retracted_attribute_error :
    retractedApply aSeg = .error .attributeError
    ∧ retractedApply tSeg = .error .attributeError
    ∧ aSeg.is_dorsal = true ∧ tSeg.is_dorsal = false
    ∧ process envT "a̠" = .error .attributeError :=
  ⟨rfl, rfl, rfl, rfl, rfl⟩

/-- Claim C3 is a code bug: after a successful diacritic application the
loop runs `i += len(d)`, but `Diacritic` defines no `__len__`, so `len(d)`
raises `TypeError`: the cursor never advances over a matched diacritic.
Concretely, the nasalization diacritic applies to "a" successfully, yet
decomposing "ã" raises `TypeError` instead of consuming the diacritic.
(The loop still terminates on every input — each completed iteration
consumes at least one codepoint — but diacritic iterations abort instead
of advancing as the claim states.) -/
theorem c3_diacritic_len_type_error :
    lookupDia "̃" = some ⟨"̃", .delta [(.nasal, true)]⟩
    ∧ (∃ s2, diaApply ⟨"̃", .delta [(.nasal, true)]⟩ aSeg = .ok s2)
    ∧ process envT "ã" = .error .typeError := by
  refine ⟨by decide, ⟨?_, ?_⟩, by decide⟩
  · exact { aSeg with nasal := true, diacritics := ["̃"] }
  · rfl

/-- Claim C1: round-trip of decomposition.  For every raw string whose
decomposition succeeds with a single Segment `s`, decomposing the rendered
surface string of `s` (base plus concatenated diacritics) again succeeds
with a Segment whose rendered surface string equals that of `s` (the
`Segment.__eq__` notion of equality).  The hypotheses state what
`FeatureProcessor.__init__` guarantees about the base-segment table: every
entry's Segment carries its key as `base` with no diacritics, keys are
distinct, and keys are already in canonical decomposed form (the table is
built with `unicodedata.normalize('NFD', ·)` applied to every key, and NFD
is idempotent). -/
theorem c1_roundtrip_decomposition (env : ProcEnv)
    (htable : ∀ p ∈ env.bases,
      p.2.base = p.1 ∧ p.2.diacritics = ([] : List String)
        ∧ env.nfd p.1 = p.1)
    (hnodup : (env.bases.map Prod.fst).Nodup)
    (raw : String) (s : Segment)
    (hok : process env raw = .ok (.seg s)) :
    ∃ s2, process env s.str = .ok (.seg s2) ∧ s2.str = s.str := by
  simp only [process] at hok
  rcases hm : matchBase env.bases (env.nfd raw).data with _ | p <;>
    simp only [hm] at hok
  · exact Except.noConfusion hok
  rcases hl : procLoop env (env.nfd raw).data.length
      ((env.nfd raw).data.drop p.1.length) p.2 [] with e | bases <;>
    simp only [hl] at hok
  · exact Except.noConfusion hok
  rcases bases with _ | ⟨b1, _ | ⟨b2, bs⟩⟩
  · have hgt := procLoop_ok_length env _ _ _ _ _ hl
    simp at hgt
  · -- the single-Segment case: the loop consumed nothing, so `s` is the
    -- table entry itself
    rw [finishBases] at hok
    have hbs : b1 = s := PResult.seg.inj (Except.ok.inj hok)
    obtain ⟨-, hres⟩ :=
      procLoop_ok_singleton env _ _ _ _ _ hl (by simp)
    have hb1 : b1 = p.2 := by simpa using hres
    have hs : s = p.2 := hbs ▸ hb1
    have hpmem : p ∈ env.bases := matchBase_mem _ _ _ hm
    obtain ⟨hbase, hdia, hnfd⟩ := htable p hpmem
    have hstr : Segment.str s = p.1 := by
      rw [hs, Segment.str, hbase, hdia]
      simp [String.join]
    refine ⟨s, ?_, rfl⟩
    simp only [process]
    rw [hstr, hnfd]
    have hmb : matchBase env.bases p.1.data = some (p.1, p.2) :=
      matchBase_self _ _ _ hpmem hnodup
    simp only [hmb]
    have hdrop : p.1.data.drop (p.1, p.2).1.length = [] := by
      have hll : (p.1, p.2).1.length = p.1.data.length := rfl
      rw [hll, List.drop_length]
    rw [hdrop]
    simp only [procLoop, List.nil_append]
    rw [finishBases, hs]
  · -- more than one base yields an Nphthong, never a single Segment
    rw [finishBases] at hok
    rcases hn : nphthongMk (b1 :: b2 :: bs) with e | m <;>
      simp only [hn, Except.map_error, Except.map_ok] at hok
    · exact Except.noConfusion hok
    · exact PResult.noConfusion (Except.ok.inj hok)

/-- Witness for C1: the concrete environment over "t", "a", "i" and the
input "a". -/
theorem c1_roundtrip_witness :
    ∃ s2, process envT (Segment.str aSeg) = .ok (.seg s2)
      ∧ s2.str = aSeg.str :=
  c1_roundtrip_decomposition envT (by decide) (by decide) "a" aSeg (by decide)


end Pypheature
